import Mathlib

/-!
Shallow embedding of the Grisu3 double-to-decimal formatter (`src/grisu.rs`)
and the decimal `Number` model (`src/number.rs`) of the json-rust repository.

Machine integers are modelled as `Nat` (for `u64`/`u32`/`u8`/`u16`) and `Int`
(for `i32`/`i16`/`isize`), with explicit `% 2^w` reductions at every operation
where the Rust code can wrap.  A `f64` value is represented by its 64-bit IEEE
pattern.  The single floating-point computation on the Grisu path (the
`ceil((exp+63) * D_1_LOG2_10)` in `cached_pow`) is modelled exactly as dyadic
rational arithmetic: the literal `0.30102999566398114` is the double with bit
pattern 0x3FD34413509F79FE, i.e. exactly `5422874305198590 * 2^-54`, the i32
operand converts to f64 exactly, the product is rounded to 53 significant bits
with round-to-nearest-even, and `ceil` of the resulting dyadic is exact.

While loops are translated as fuel-indexed structural recursions returning
`Option` (with `none` for fuel exhaustion); the fuel amounts used by the
drivers are far above the loop bounds reachable from valid inputs.
Scratch buffers written through raw pointers are modelled as `List Nat`
(byte lists) passed in and out explicitly.
-/

namespace Grisu

/-- `const D64_SIGN: u64 = 0x8000000000000000` -/
def D64_SIGN : Nat := 0x8000000000000000

/-- `const D64_EXP_MASK: u64 = 0x7FF0000000000000` -/
def D64_EXP_MASK : Nat := 0x7FF0000000000000

/-- `const D64_FRACT_MASK: u64 = 0x000FFFFFFFFFFFFF` -/
def D64_FRACT_MASK : Nat := 0x000FFFFFFFFFFFFF

/-- `const D64_IMPLICIT_ONE: u64 = 0x0010000000000000` -/
def D64_IMPLICIT_ONE : Nat := 0x0010000000000000

/-- `const D64_EXP_POS: u64 = 52` -/
def D64_EXP_POS : Nat := 52

/-- `const D64_EXP_BIAS: i32 = 1075` -/
def D64_EXP_BIAS : Int := 1075

/-- `const DIYFP_FRACT_SIZE: i32 = 64` -/
def DIYFP_FRACT_SIZE : Int := 64

/-- `const MIN_TARGET_EXP: i32 = -60` -/
def MIN_TARGET_EXP : Int := -60

/-- `const MASK32: u64 = 0xFFFFFFFF` -/
def MASK32 : Nat := 0xFFFFFFFF

/-- `const MIN_CACHED_EXP: i32 = -348` -/
def MIN_CACHED_EXP : Int := -348

/-- `const CACHED_EXP_STEP: i32 = 8` -/
def CACHED_EXP_STEP : Int := 8

/-- Wrapping reduction of a `u64` computation. -/
def wrap64 (x : Nat) : Nat := x % 2^64

/-- `u64` wrapping addition. -/
def add64 (a b : Nat) : Nat := (a + b) % 2^64

/-- `u64` wrapping subtraction (`a.wrapping_sub b` for `a, b < 2^64`). -/
def sub64 (a b : Nat) : Nat := (2^64 + a - b) % 2^64

/-- `u64` wrapping multiplication. -/
def mul64 (a b : Nat) : Nat := (a * b) % 2^64

/-- Value of an `i32`/`i16`-style two's-complement wrap into `[-2^15, 2^15)`. -/
def toI16 (x : Int) : Int := (x + 2^15) % 2^16 - 2^15

/-- Rust `as u16` cast of an `i16` value. -/
def toU16 (x : Int) : Nat := (x % 2^16).toNat

/-- Rust `as u8` cast of an `i32` value. -/
def toU8 (x : Int) : Nat := (x % 2^8).toNat

/-- Two's-complement wrap into `[-2^31, 2^31)`, modelling `i32` arithmetic. -/
def toI32 (x : Int) : Int := (x + 2^31) % 2^32 - 2^31

/-- `struct DiyFp { f: u64, e: i32 }` -/
structure DiyFp where
  f : Nat
  e : Int
deriving Repr, DecidableEq

/-- `struct Power { fract: u64, b_exp: i32, d_exp: i32 }` -/
structure Power where
  fract : Nat
  b_exp : Int
  d_exp : Int
deriving Repr, DecidableEq

/-- `static POW_CACHE: [Power; 87]` — the cached powers of ten. -/
def POW_CACHE : List Power := [
  Power.mk 0xfa8fd5a0081c0288 (-1220) (-348),
  Power.mk 0xbaaee17fa23ebf76 (-1193) (-340),
  Power.mk 0x8b16fb203055ac76 (-1166) (-332),
  Power.mk 0xcf42894a5dce35ea (-1140) (-324),
  Power.mk 0x9a6bb0aa55653b2d (-1113) (-316),
  Power.mk 0xe61acf033d1a45df (-1087) (-308),
  Power.mk 0xab70fe17c79ac6ca (-1060) (-300),
  Power.mk 0xff77b1fcbebcdc4f (-1034) (-292),
  Power.mk 0xbe5691ef416bd60c (-1007) (-284),
  Power.mk 0x8dd01fad907ffc3c (-980) (-276),
  Power.mk 0xd3515c2831559a83 (-954) (-268),
  Power.mk 0x9d71ac8fada6c9b5 (-927) (-260),
  Power.mk 0xea9c227723ee8bcb (-901) (-252),
  Power.mk 0xaecc49914078536d (-874) (-244),
  Power.mk 0x823c12795db6ce57 (-847) (-236),
  Power.mk 0xc21094364dfb5637 (-821) (-228),
  Power.mk 0x9096ea6f3848984f (-794) (-220),
  Power.mk 0xd77485cb25823ac7 (-768) (-212),
  Power.mk 0xa086cfcd97bf97f4 (-741) (-204),
  Power.mk 0xef340a98172aace5 (-715) (-196),
  Power.mk 0xb23867fb2a35b28e (-688) (-188),
  Power.mk 0x84c8d4dfd2c63f3b (-661) (-180),
  Power.mk 0xc5dd44271ad3cdba (-635) (-172),
  Power.mk 0x936b9fcebb25c996 (-608) (-164),
  Power.mk 0xdbac6c247d62a584 (-582) (-156),
  Power.mk 0xa3ab66580d5fdaf6 (-555) (-148),
  Power.mk 0xf3e2f893dec3f126 (-529) (-140),
  Power.mk 0xb5b5ada8aaff80b8 (-502) (-132),
  Power.mk 0x87625f056c7c4a8b (-475) (-124),
  Power.mk 0xc9bcff6034c13053 (-449) (-116),
  Power.mk 0x964e858c91ba2655 (-422) (-108),
  Power.mk 0xdff9772470297ebd (-396) (-100),
  Power.mk 0xa6dfbd9fb8e5b88f (-369) (-92),
  Power.mk 0xf8a95fcf88747d94 (-343) (-84),
  Power.mk 0xb94470938fa89bcf (-316) (-76),
  Power.mk 0x8a08f0f8bf0f156b (-289) (-68),
  Power.mk 0xcdb02555653131b6 (-263) (-60),
  Power.mk 0x993fe2c6d07b7fac (-236) (-52),
  Power.mk 0xe45c10c42a2b3b06 (-210) (-44),
  Power.mk 0xaa242499697392d3 (-183) (-36),
  Power.mk 0xfd87b5f28300ca0e (-157) (-28),
  Power.mk 0xbce5086492111aeb (-130) (-20),
  Power.mk 0x8cbccc096f5088cc (-103) (-12),
  Power.mk 0xd1b71758e219652c (-77) (-4),
  Power.mk 0x9c40000000000000 (-50) (4),
  Power.mk 0xe8d4a51000000000 (-24) (12),
  Power.mk 0xad78ebc5ac620000 (3) (20),
  Power.mk 0x813f3978f8940984 (30) (28),
  Power.mk 0xc097ce7bc90715b3 (56) (36),
  Power.mk 0x8f7e32ce7bea5c70 (83) (44),
  Power.mk 0xd5d238a4abe98068 (109) (52),
  Power.mk 0x9f4f2726179a2245 (136) (60),
  Power.mk 0xed63a231d4c4fb27 (162) (68),
  Power.mk 0xb0de65388cc8ada8 (189) (76),
  Power.mk 0x83c7088e1aab65db (216) (84),
  Power.mk 0xc45d1df942711d9a (242) (92),
  Power.mk 0x924d692ca61be758 (269) (100),
  Power.mk 0xda01ee641a708dea (295) (108),
  Power.mk 0xa26da3999aef774a (322) (116),
  Power.mk 0xf209787bb47d6b85 (348) (124),
  Power.mk 0xb454e4a179dd1877 (375) (132),
  Power.mk 0x865b86925b9bc5c2 (402) (140),
  Power.mk 0xc83553c5c8965d3d (428) (148),
  Power.mk 0x952ab45cfa97a0b3 (455) (156),
  Power.mk 0xde469fbd99a05fe3 (481) (164),
  Power.mk 0xa59bc234db398c25 (508) (172),
  Power.mk 0xf6c69a72a3989f5c (534) (180),
  Power.mk 0xb7dcbf5354e9bece (561) (188),
  Power.mk 0x88fcf317f22241e2 (588) (196),
  Power.mk 0xcc20ce9bd35c78a5 (614) (204),
  Power.mk 0x98165af37b2153df (641) (212),
  Power.mk 0xe2a0b5dc971f303a (667) (220),
  Power.mk 0xa8d9d1535ce3b396 (694) (228),
  Power.mk 0xfb9b7cd9a4a7443c (720) (236),
  Power.mk 0xbb764c4ca7a44410 (747) (244),
  Power.mk 0x8bab8eefb6409c1a (774) (252),
  Power.mk 0xd01fef10a657842c (800) (260),
  Power.mk 0x9b10a4e5e9913129 (827) (268),
  Power.mk 0xe7109bfba19c0c9d (853) (276),
  Power.mk 0xac2820d9623bf429 (880) (284),
  Power.mk 0x80444b5e7aa7cf85 (907) (292),
  Power.mk 0xbf21e44003acdd2d (933) (300),
  Power.mk 0x8e679c2f5e44ff8f (960) (308),
  Power.mk 0xd433179d9c8cb841 (986) (316),
  Power.mk 0x9e19db92b4e31ba9 (1013) (324),
  Power.mk 0xeb96bf6ebadf77d9 (1039) (332),
  Power.mk 0xaf87023b9bf0ee6b (1066) (340)]

/-- Exact significand of the f64 constant `D_1_LOG2_10 = 0.30102999566398114`
(bit pattern 0x3FD34413509F79FE): the constant is exactly `cM * 2^-54`. -/
def cM : Nat := 5422874305198590

/-- Floor of `log2`, as a fuel-indexed structural recursion (so that it reduces
inside the kernel); `log2Fuel fuel n = Nat.log2 n` whenever `n < 2^fuel`. -/
def log2Fuel : Nat → Nat → Nat
  | 0, _ => 0
  | fuel+1, n => if n < 2 then 0 else log2Fuel fuel (n / 2) + 1

/-- Round-to-nearest-even of the dyadic rational `N / 2^54` to 53 significant
bits, returned as the numerator of the result over the same denominator `2^54`.
This is the exact value of the f64 product `(n as f64) * D_1_LOG2_10` when
`N = |n| * cM` (all magnitudes arising from `cached_pow` stay in the normal
f64 range, so neither overflow nor subnormal rounding can occur). -/
def roundDyadic (N : Nat) : Nat :=
  let L := log2Fuel 128 N
  if L ≤ 52 then N
  else
    let d := L - 52
    let U0 := N / 2^d
    let r := N % 2^d
    let U1 := if 2*r > 2^d ∨ (2*r = 2^d ∧ U0 % 2 = 1) then U0 + 1 else U0
    U1 * 2^d

/-- Exact model of the Rust expression
`(((exp + DIYFP_FRACT_SIZE - 1) as f64) * D_1_LOG2_10).ceil() as i32` with
`n = exp + 63` already substituted: the i32→f64 conversion is exact, the
multiplication rounds to nearest-even (`roundDyadic`), and `ceil` and the
f64→i32 cast are exact for the magnitudes involved. -/
def ceilMulLog (n : Int) : Int :=
  if n = 0 then 0
  else
    let U := roundDyadic (n.natAbs * cM)
    if 0 < n then ((U + 2^54 - 1) / 2^54 : Nat) else -((U / 2^54 : Nat))

/-- The `k` computed by `cached_pow`:
`k = (((exp + DIYFP_FRACT_SIZE - 1) as f64) * D_1_LOG2_10).ceil() as i32`. -/
def cachedPowK (exp : Int) : Int := ceilMulLog (exp + DIYFP_FRACT_SIZE - 1)

/-- The table index computed by `cached_pow`:
`i = (k - MIN_CACHED_EXP - 1) / CACHED_EXP_STEP + 1` (Rust `i32` division
truncates toward zero, i.e. `Int.div`). -/
def cachedPowIdx (exp : Int) : Int :=
  (cachedPowK exp - MIN_CACHED_EXP - 1).tdiv CACHED_EXP_STEP + 1

/-- `fn cached_pow(exp: i32, p: &mut DiyFp) -> i32` — the out-parameter `p` is
modelled by returning the pair `(p, d_exp)`.  The Rust indexing
`POW_CACHE[i as usize]` is modelled with `getD` (the index is proved in
bounds for every input reachable from a strictly positive finite double). -/
def cached_pow (exp : Int) : DiyFp × Int :=
  let power := POW_CACHE.getD (cachedPowIdx exp).toNat ⟨0, 0, 0⟩
  (⟨power.fract, power.b_exp⟩, power.d_exp)

/-- `fn minus(x: &DiyFp, y: &DiyFp) -> DiyFp`.  The source asserts
`x.e == y.e && x.f >= y.f`; under that precondition truncated `Nat`
subtraction agrees with the `u64` subtraction performed. -/
def minus (x y : DiyFp) : DiyFp := ⟨x.f - y.f, x.e⟩

/-- `fn multiply(x: &DiyFp, y: &DiyFp) -> DiyFp` — four 32×32 partial
products, a `2^31` rounding bias added to the middle bits, truncation to the
high 64 bits. -/
def multiply (x y : DiyFp) : DiyFp :=
  let a := x.f >>> 32
  let b := x.f &&& MASK32
  let c := y.f >>> 32
  let d := y.f &&& MASK32
  let ac := a * c
  let bc := b * c
  let ad := a * d
  let bd := b * d
  let tmp := (bd >>> 32) + (ad &&& MASK32) + (bc &&& MASK32) + 2^31
  ⟨(ac + (ad >>> 32) + (bc >>> 32) + (tmp >>> 32)) % 2^64, x.e + y.e + 64⟩

/-- First loop of `normalize_diy_fp`:
`while (n.f & 0xFFC0000000000000) == 0 { n.f <<= 10; n.e -= 10; }`,
as a fuel-indexed recursion. -/
def normShift10 : Nat → Nat → Int → Nat × Int
  | 0, f, e => (f, e)
  | fuel+1, f, e =>
    if f &&& 0xFFC0000000000000 = 0 then normShift10 fuel ((f <<< 10) % 2^64) (e - 10)
    else (f, e)

/-- Second loop of `normalize_diy_fp`:
`while (n.f & D64_SIGN) == 0 { n.f <<= 1; n.e -= 1; }`. -/
def normShift1 : Nat → Nat → Int → Nat × Int
  | 0, f, e => (f, e)
  | fuel+1, f, e =>
    if f &&& D64_SIGN = 0 then normShift1 fuel ((f <<< 1) % 2^64) (e - 1)
    else (f, e)

/-- `fn normalize_diy_fp(mut n: DiyFp) -> DiyFp`.  The source asserts
`n.f != 0`; for `1 ≤ f < 2^64` the two loops run at most 6 and 9 times, so
fuels 7 and 10 are unreachable bounds. -/
def normalize_diy_fp (n : DiyFp) : DiyFp :=
  let p1 := normShift10 7 n.f n.e
  let p2 := normShift1 10 p1.1 p1.2
  ⟨p2.1, p2.2⟩

/-- `fn double2diy_fp(d: f64) -> DiyFp`, on the 64-bit pattern `u` of `d`. -/
def double2diy_fp (u : Nat) : DiyFp :=
  if u &&& D64_EXP_MASK = 0 then
    ⟨u &&& D64_FRACT_MASK, 1 - D64_EXP_BIAS⟩
  else
    ⟨(u &&& D64_FRACT_MASK) + D64_IMPLICIT_ONE,
     (((u &&& D64_EXP_MASK) >>> D64_EXP_POS : Nat) : Int) - D64_EXP_BIAS⟩

/-- `static POW10_CACHE: [u32; 11]` (`POW10_CACHE[i] = 10^(i-1)`, entry 0 unused). -/
def POW10_CACHE : List Nat :=
  [0, 1, 10, 100, 1000, 10000, 100000, 1000000, 10000000, 100000000, 1000000000]

/-- `fn largest_pow10(n: u32, n_bits: i32, power: &mut u32) -> i32` — the
out-parameter is modelled by returning `(guess, power)`.  The Rust `>> 12` on
`i32` is an arithmetic shift, i.e. floor division by `2^12`. -/
def largest_pow10 (n : Nat) (n_bits : Int) : Int × Nat :=
  let guess : Int := ((n_bits + 1) * 1233).fdiv 4096 + 1
  let pow := POW10_CACHE.getD guess.toNat 0
  if n < pow then (guess - 1, POW10_CACHE.getD (guess - 1).toNat 0)
  else (guess, pow)


/-- Read a byte of the scratch buffer at a (pointer-arithmetic) offset. -/
def bget (buf : List Nat) (idx : Int) : Nat := buf.getD idx.toNat 0

/-- Write a byte of the scratch buffer at a (pointer-arithmetic) offset. -/
def bset (buf : List Nat) (idx : Int) (v : Nat) : List Nat := buf.set idx.toNat v

/-- Write a sequence of bytes starting at an offset (used to splice the output
of `i_to_str` into the formatter's buffer). -/
def bwrite (buf : List Nat) (idx : Int) : List Nat → List Nat
  | [] => buf
  | b :: bs => bwrite (bset buf idx b) (idx + 1) bs

/-- The rounding-down loop of `round_weed`:
`while rest < wp_Wup && delta - rest >= ten_kappa && (rest + ten_kappa < wp_Wup
|| wp_Wup - rest >= rest + ten_kappa - wp_Wup) { buffer[len-1] -= 1; rest += ten_kappa; }`
with all `u64` operations wrapping.  `pos` is the offset `len - 1` of the last
digit; the result is the final buffer and the final value of `rest`. -/
def roundWeedLoop : Nat → List Nat → Nat → Nat → Nat → Nat → Nat → Option (List Nat × Nat)
  | 0, _, _, _, _, _, _ => none
  | fuel+1, buf, pos, wp_Wup, delta, rest, ten_kappa =>
    if rest < wp_Wup ∧ ten_kappa ≤ sub64 delta rest ∧
       (add64 rest ten_kappa < wp_Wup ∨ sub64 (add64 rest ten_kappa) wp_Wup ≤ sub64 wp_Wup rest) then
      roundWeedLoop fuel (buf.set pos ((buf.getD pos 0 + 255) % 256)) pos wp_Wup delta
        (add64 rest ten_kappa) ten_kappa
    else
      some (buf, rest)

/-- `fn round_weed(buffer, len, wp_W, delta, rest, ten_kappa, ulp) -> i32`.
In addition to the source's return value (0 or 1) the model also returns the
final buffer and the final value of `rest` after the rounding-down loop, so
that theorems can speak about the final remainder. -/
def round_weed (fuel : Nat) (buf : List Nat) (base len : Nat)
    (wp_W delta rest ten_kappa ulp : Nat) : Option (List Nat × Nat × Int) :=
  let wp_Wup := sub64 wp_W ulp
  let wp_Wdown := add64 wp_W ulp
  match roundWeedLoop fuel buf (base + len - 1) wp_Wup delta rest ten_kappa with
  | none => none
  | some (buf1, rest1) =>
    if rest1 < wp_Wdown ∧ ten_kappa ≤ sub64 delta rest1 ∧
       (add64 rest1 ten_kappa < wp_Wdown ∨ sub64 (add64 rest1 ten_kappa) wp_Wdown < sub64 wp_Wdown rest1) then
      some (buf1, rest1, 0)
    else
      some (buf1, rest1,
        if mul64 2 ulp ≤ rest1 ∧ rest1 ≤ sub64 delta (mul64 4 ulp) then 1 else 0)

/-- Mutable state threaded through the two loops of `digit_gen`. -/
structure DGState where
  buf : List Nat
  length : Nat
  p1 : Nat
  p2 : Nat
  div : Nat
  kappa : Int
  unit : Nat
  interval_f : Nat
deriving Repr

/-- The integer-part loop of `digit_gen` (`while *kappa > 0 { ... }`).
Returns `.inl` with `(buffer, length, kappa, round_weed result)` when the
early interval test fires, `.inr` with the fall-through state otherwise. -/
def digitGenLoop1 (rwFuel base : Nat) (one : DiyFp) (whf : Nat) :
    Nat → DGState → Option ((List Nat × Nat × Int × Int) ⊕ DGState)
  | 0, _ => none
  | fuel+1, st =>
    if 0 < st.kappa then
      let digit := st.p1 / st.div
      let buf := st.buf.set (base + st.length) ((48 + digit) % 256)
      let length := st.length + 1
      let p1 := st.p1 % st.div
      let kappa := st.kappa - 1
      let rest := add64 ((p1 <<< (-one.e).toNat) % 2^64) st.p2
      if rest < st.interval_f then
        match round_weed rwFuel buf base length whf st.interval_f rest
            ((st.div <<< (-one.e).toNat) % 2^64) st.unit with
        | none => none
        | some (buf2, _, ret) => some (.inl (buf2, length, kappa, ret))
      else
        digitGenLoop1 rwFuel base one whf fuel
          { st with buf := buf, length := length, p1 := p1, kappa := kappa, div := st.div / 10 }
    else
      some (.inr st)

/-- The fractional-part loop of `digit_gen` (`loop { ... }`), with the `×10`
steps written as `(x << 3) + (x << 1)` as in the source. -/
def digitGenLoop2 (rwFuel base : Nat) (one : DiyFp) (whf : Nat) :
    Nat → DGState → Option (List Nat × Nat × Int × Int)
  | 0, _ => none
  | fuel+1, st =>
    let p2 := (((st.p2 <<< 3) % 2^64) + ((st.p2 <<< 1) % 2^64)) % 2^64
    let unit := (((st.unit <<< 3) % 2^64) + ((st.unit <<< 1) % 2^64)) % 2^64
    let ui := (((st.interval_f <<< 3) % 2^64) + ((st.interval_f <<< 1) % 2^64)) % 2^64
    let digit := (p2 >>> (-one.e).toNat) % 256
    let buf := st.buf.set (base + st.length) ((48 + digit) % 256)
    let length := st.length + 1
    let p2b := p2 &&& (one.f - 1)
    let kappa := st.kappa - 1
    if p2b < ui then
      match round_weed rwFuel buf base length (mul64 whf unit) ui p2b one.f unit with
      | none => none
      | some (buf2, _, ret) => some (buf2, length, kappa, ret)
    else
      digitGenLoop2 rwFuel base one whf fuel
        { st with buf := buf, length := length, p2 := p2b, unit := unit, interval_f := ui, kappa := kappa }

/-- `fn digit_gen(low, w, high, buffer, length, kappa) -> i32` — returns
`(success, buffer, length, kappa)`.  Digits are written starting at buffer
offset `base` (the `s2` pointer of the caller). -/
def digit_gen (low w high : DiyFp) (buf : List Nat) (base : Nat) :
    Option (Int × List Nat × Nat × Int) :=
  let unit : Nat := 1
  let too_low : DiyFp := ⟨sub64 low.f unit, low.e⟩
  let too_high : DiyFp := ⟨add64 high.f unit, high.e⟩
  let interval := minus too_high too_low
  let one : DiyFp := ⟨(1 <<< (-w.e).toNat) % 2^64, w.e⟩
  let p1 := (too_high.f >>> (-one.e).toNat) % 2^32
  let p2 := too_high.f &&& (one.f - 1)
  let kd := largest_pow10 p1 (DIYFP_FRACT_SIZE + one.e)
  let st : DGState := ⟨buf, 0, p1, p2, kd.2, kd.1, unit, interval.f⟩
  match digitGenLoop1 200 base one (minus too_high w).f 24 st with
  | none => none
  | some (.inl (b, len, kap, ret)) => some (ret, b, len, kap)
  | some (.inr st2) =>
    match digitGenLoop2 200 base one (minus too_high w).f 80 st2 with
    | none => none
    | some (b, len, kap, ret) => some (ret, b, len, kap)

/-- `fn grisu3(v: f64, buffer, length, d_exp) -> i32`, on the bit pattern `u`
of `v`; digits go into `buf` at offset `base`.  Returns
`(success, buffer, length, d_exp)`.  The source asserts
`v > 0.0 && v <= 1.7976931348623157e308`, i.e. `1 ≤ u ≤ 0x7FEFFFFFFFFFFFFF`. -/
def grisu3 (u : Nat) (buf : List Nat) (base : Nat) :
    Option (Int × List Nat × Nat × Int) :=
  let dfp := double2diy_fp u
  let w := normalize_diy_fp dfp
  let t : DiyFp := ⟨((dfp.f <<< 1) % 2^64 + 1) % 2^64, dfp.e - 1⟩
  let b_plus := normalize_diy_fp t
  let b_minus0 : DiyFp :=
    if u &&& D64_FRACT_MASK = 0 ∧ u &&& D64_EXP_MASK ≠ 0 then
      ⟨sub64 ((dfp.f <<< 2) % 2^64) 1, dfp.e - 2⟩
    else
      ⟨sub64 ((dfp.f <<< 1) % 2^64) 1, dfp.e - 1⟩
  let b_minus : DiyFp :=
    ⟨(b_minus0.f <<< (b_minus0.e - b_plus.e).toNat) % 2^64, b_plus.e⟩
  let ck := cached_pow (MIN_TARGET_EXP - DIYFP_FRACT_SIZE - w.e)
  let c_mk := ck.1
  let mk := ck.2
  let w2 := multiply w c_mk
  let bm := multiply b_minus c_mk
  let bp := multiply b_plus c_mk
  match digit_gen bm w2 bp buf base with
  | none => none
  | some (success, b, len, kappa) => some (success, b, len, kappa - mk)

/-- `fn exp_len(u: i32) -> i32` — printed length of the exponent integer,
for `u` in `[-9999, 9999]`. -/
def exp_len (u : Int) : Int :=
  if 0 < u then
    if 1000 ≤ u then 4 else if 100 ≤ u then 3 else if 10 ≤ u then 2 else 1
  else if u < 0 then
    if u ≤ -1000 then 5 else if u ≤ -100 then 4 else if u ≤ -10 then 3 else 2
  else 1

/-- The digit loop of `i_to_str`, producing the bytes least-significant digit
first.  The source computes the digit as `(val - (ni << 3 + ni << 1)) as u8`;
by Rust operator precedence this is `val - ((ni << (3 + ni)) << 1)` (not the
`val - ni*10` of the reference C), with release-mode semantics: the shift
amount is masked to 5 bits and the i32 arithmetic wraps; the digit is then
truncated to `u8` and added (wrapping) to `b'0'`. -/
def iToStrDigits : Nat → Nat → List Nat
  | 0, _ => []
  | fuel+1, val =>
    let ni := val / 10
    let digit : Int := toI32 ((val : Int) - toI32 (toI32 ((ni : Int) * 2^((3 + ni) % 32)) * 2))
    let byte := (48 + toU8 digit) % 256
    if ni = 0 then [byte] else byte :: iToStrDigits fuel ni

/-- `fn i_to_str(val: i32, str: *mut u8) -> isize` — returns the bytes written
(a minus sign for a negative value, then the digits, reversed into
most-significant-first order as the source's in-place reversal does) together
with the returned count.  The trailing NUL stored by the source lands just
past the returned bytes and is overwritten by the caller's terminator, so it
is not part of the model. -/
def i_to_str (val : Int) : List Nat × Nat :=
  let ds := (iToStrDigits 40 val.natAbs).reverse
  let out := (if val < 0 then [45] else []) ++ ds
  (out, out.length)

/-- Zero-length placeholder corresponding to `let mut buf: [u8; 32] =
mem::uninitialized()` with a zero-filled scratch buffer. -/
def zeros32 : List Nat := List.replicate 32 0

/-- Loop `for i in 0..decimals { s2[len - i] = s2[len - (i-1)]; }` of the
decimal-point branch of `write` (note: the source reads offset `len - (i-1)`,
not the reference C's `len - i - 1`). -/
def writeShiftA (s2 : Nat) (len : Int) : Nat → Int → List Nat → List Nat
  | 0, _, buf => buf
  | count+1, i, buf =>
    writeShiftA s2 len count (i + 1)
      (bset buf ((s2 : Int) + (len - i)) (bget buf ((s2 : Int) + (len - (i - 1)))))

/-- Loop `for i in 0..len { s2[len - d_exp - 1 - i] = s2[len - i - 1]; }` of
the leading-zero branch of `write`. -/
def writeShiftB (s2 : Nat) (len d_exp : Int) : Nat → Int → List Nat → List Nat
  | 0, _, buf => buf
  | count+1, i, buf =>
    writeShiftB s2 len d_exp count (i + 1)
      (bset buf ((s2 : Int) + (len - d_exp - 1 - i)) (bget buf ((s2 : Int) + (len - i - 1))))

/-- Loop `for i in 1..(-d_exp) { s2[i] = b'0'; }` of the leading-zero branch. -/
def writeZerosB (s2 : Nat) : Nat → Int → List Nat → List Nat
  | 0, _, buf => buf
  | count+1, i, buf => writeZerosB s2 count (i + 1) (bset buf ((s2 : Int) + i) 48)

/-- Trailing-zeros loop `while d_exp > 0 { s2[len] = b'0'; len += 1; d_exp -= 1 }`. -/
def writeZerosD (s2 : Nat) : Nat → Int → List Nat → List Nat
  | 0, _, buf => buf
  | count+1, len, buf => writeZerosD s2 count (len + 1) (bset buf ((s2 : Int) + len) 48)

/-- `pub fn write<W: Write>(writer: &mut W, v: f64)`, on the bit pattern `u0`
of `v` and an explicit initial scratch buffer `buf0` (the source uses an
uninitialized 32-byte stack array).  The bytes sent to the sink are returned
as `.ok`; the three `panic!(..)` calls are modelled as `.error` with the
panic message; `none` is fuel exhaustion of the inner loops (never reached
with the chosen fuels on the inputs used in the theorems below). -/
def write (u0 : Nat) (buf0 : List Nat) : Option (Except String (List Nat)) :=
  let u := u0 % 2^64
  if 0xFFE0000000000000 < (u <<< 1) % 2^64 then some (.error "NAN!")
  else
    let s2 : Nat := if u &&& D64_SIGN ≠ 0 then 1 else 0
    let buf1 := if u &&& D64_SIGN ≠ 0 then bset buf0 0 45 else buf0
    let u1 := if u &&& D64_SIGN ≠ 0 then u ^^^ D64_SIGN else u
    if u1 = 0 then some (.ok ((bset buf1 s2 48).take (s2 + 1)))
    else if u1 = D64_EXP_MASK then some (.error "INF!")
    else
      match grisu3 u1 buf1 s2 with
      | none => none
      | some (success, buf2, len0, d_exp0) =>
        if success = 0 then some (.error "GRISU CANNOT DO!")
        else
          let len : Int := len0
          let d_exp : Int := d_exp0
          let decimals := min (-d_exp) (max 1 (len - 1))
          if d_exp < 0 ∧ (-d_exp ≤ len ∨ exp_len (d_exp + decimals) + 1 ≤ exp_len d_exp) then
            let buf3 := writeShiftA s2 len decimals.toNat 0 buf2
            let buf4 := bset buf3 ((s2 : Int) + (len - decimals)) 46
            let len1 := len + 1
            let d_exp1 := d_exp + decimals
            if d_exp1 ≠ 0 then
              let buf5 := bset buf4 ((s2 : Int) + len1) 101
              let es := i_to_str d_exp1
              let buf6 := bwrite buf5 ((s2 : Int) + len1) es.1
              let len2 := len1 + 1 + (es.2 : Int)
              some (.ok ((bset buf6 ((s2 : Int) + len2) 48).take (s2 + len2.toNat)))
            else
              some (.ok ((bset buf4 ((s2 : Int) + len1) 48).take (s2 + len1.toNat)))
          else if d_exp < 0 ∧ -3 ≤ d_exp then
            let buf3 := writeShiftB s2 len d_exp len.toNat 0 buf2
            let buf4 := bset buf3 (s2 : Int) 46
            let buf5 := writeZerosB s2 (-d_exp - 1).toNat 1 buf4
            let len1 := len + -d_exp
            some (.ok ((bset buf5 ((s2 : Int) + len1) 48).take (s2 + len1.toNat)))
          else if d_exp < 0 ∨ 2 < d_exp then
            let buf3 := bset buf2 ((s2 : Int) + len) 101
            let len1 := len + 1
            let es := i_to_str d_exp
            let buf4 := bwrite buf3 ((s2 : Int) + len1) es.1
            let len2 := len1 + (es.2 : Int)
            some (.ok ((bset buf4 ((s2 : Int) + len2) 48).take (s2 + len2.toNat)))
          else if 0 < d_exp then
            let buf3 := writeZerosD s2 d_exp.toNat len buf2
            let len1 := len + d_exp
            some (.ok ((bset buf3 ((s2 : Int) + len1) 48).take (s2 + len1.toNat)))
          else
            some (.ok ((bset buf2 ((s2 : Int) + len) 48).take (s2 + len.toNat)))

/-- Bytes that can occur in a JSON/decimal numeric literal
(digits, decimal point, exponent markers, signs). -/
def decimalLiteralByte (b : Nat) : Bool :=
  (48 ≤ b && b ≤ 57) || b == 46 || b == 101 || b == 69 || b == 43 || b == 45

/-- `const NEGATIVE: u8 = 0` -/
def NEGATIVE : Nat := 0

/-- `const POSITIVE: u8 = 1` -/
def POSITIVE : Nat := 1

/-- `const NAN_MASK: u8 = !1` -/
def NAN_MASK : Nat := 0xFE

/-- `pub struct Number { category: u8, exponent: i16, mantissa: u64 }` -/
structure Number where
  category : Nat
  exponent : Int
  mantissa : Nat
deriving Repr, DecidableEq

/-- `pub const NAN: Number = Number { category: NAN_MASK, mantissa: 0, exponent: 0 }` -/
def NAN : Number := ⟨NAN_MASK, 0, 0⟩

/-- `pub fn from_parts(positive: bool, mantissa: u64, exponent: i16) -> Self`
(`positive as u8` is 1 for `true`, 0 for `false`). -/
def from_parts (positive : Bool) (mantissa : Nat) (exponent : Int) : Number :=
  ⟨if positive then 1 else 0, exponent, mantissa⟩

/-- `pub fn is_sign_positive(&self) -> bool` -/
def is_sign_positive (n : Number) : Bool := n.category == POSITIVE

/-- `pub fn is_nan(&self) -> bool` — `self.category & NAN_MASK != 0`. -/
def is_nan (n : Number) : Bool := n.category &&& NAN_MASK != 0

/-- `pub fn is_zero(&self) -> bool` — `self.mantissa == 0 && !self.is_nan()`. -/
def is_zero (n : Number) : Bool := n.mantissa == 0 && !(is_nan n)

/-- The `static CACHED: [u64; 20]` table local to `decimal_power`. -/
def DEC_CACHED : List Nat :=
  [1, 10, 100, 1000, 10000, 100000, 1000000, 10000000, 100000000, 1000000000,
   10000000000, 100000000000, 1000000000000, 10000000000000, 100000000000000,
   1000000000000000, 10000000000000000, 100000000000000000, 1000000000000000000,
   10000000000000000000]

/-- `fn decimal_power(e: u16) -> u64` — table lookup below 20, otherwise
`10u64.pow(e as u32)` (which wraps modulo `2^64` in release builds). -/
def decimal_power (e : Nat) : Nat :=
  if e < 20 then DEC_CACHED.getD e 0 else (10^e) % 2^64

/-- `impl PartialEq for Number`, `fn eq(&self, other: &Number) -> bool`.
`e_diff` is the wrapping `i16` subtraction of the exponents; the mantissa
alignment uses `wrapping_mul` (`mul64`). -/
def numberEq (a b : Number) : Bool :=
  if (is_zero a && is_zero b) || (is_nan a && is_nan b) then true
  else if a.category != b.category then false
  else
    let e_diff := toI16 (a.exponent - b.exponent)
    if e_diff == 0 then a.mantissa == b.mantissa
    else if 0 < e_diff then
      mul64 a.mantissa (decimal_power (toU16 e_diff)) == b.mantissa
    else
      a.mantissa == mul64 b.mantissa (decimal_power (toU16 (toI16 (-e_diff))))

/-- `pub fn as_fixed_point_u64(&self, point: u16) -> Option<u64>`.
`e_diff = point as i16 + self.exponent` is wrapping `i16` arithmetic;
the divide branch is `wrapping_div`, the multiply branch `wrapping_mul`. -/
def as_fixed_point_u64 (n : Number) (point : Nat) : Option Nat :=
  if n.category != POSITIVE then none
  else
    let e_diff := toI16 (toI16 point + n.exponent)
    some (if e_diff == 0 then n.mantissa
          else if e_diff < 0 then n.mantissa / decimal_power (toU16 (toI16 (-e_diff)))
          else mul64 n.mantissa (decimal_power (toU16 e_diff)))

/-- Result of `impl From<Number> for f64` / `for f32`.  The non-NaN arm of the
source reconstructs a native float from `(sign, mantissa, exponent)` with
floating-point multiplications and divisions by cached powers of ten; that
arithmetic is outside this integer embedding and is represented by the data it
is computed from.  The NaN test is the first statement of both conversions and
returns before any floating-point operation (and before anything that could
abort) is reached. -/
inductive FloatFromNumber where
  | nan : FloatFromNumber
  | finite (positive : Bool) (mantissa : Nat) (exponent : Int) : FloatFromNumber
deriving Repr, DecidableEq

/-- `impl From<Number> for f64`: `if num.is_nan() { return f64::NAN; }` first,
then the power-of-ten reconstruction loop (represented abstractly). -/
def f64_from (num : Number) : FloatFromNumber :=
  if is_nan num then .nan
  else .finite (is_sign_positive num) num.mantissa num.exponent

/-- `impl From<Number> for f32`: `if num.is_nan() { return f32::NAN; }` first,
then the two-step power-of-ten scaling (represented abstractly). -/
def f32_from (num : Number) : FloatFromNumber :=
  if is_nan num then .nan
  else .finite (is_sign_positive num) num.mantissa num.exponent

/-! ### Bit-level helper lemmas -/

/-- Masking with a shifted block of ones extracts a bit field:
`u &&& ((2^k - 1) <<< s) = ((u >>> s) % 2^k) <<< s`. -/
theorem and_mask_shift (u k s : Nat) :
    u &&& ((2^k - 1) <<< s) = ((u >>> s) % 2^k) <<< s := by
  apply Nat.eq_of_testBit_eq
  intro i
  rw [Nat.testBit_and, Nat.testBit_shiftLeft, Nat.testBit_shiftLeft,
    Nat.testBit_two_pow_sub_one, Nat.testBit_mod_two_pow, Nat.testBit_shiftRight]
  by_cases hsi : s ≤ i
  · have : s + (i - s) = i := by omega
    simp [hsi, this, Bool.and_comm, Bool.and_left_comm]
  · simp [hsi]

/-- `u &&& D64_FRACT_MASK = u % 2^52`. -/
theorem and_fract (u : Nat) : u &&& D64_FRACT_MASK = u % 2^52 := by
  have h := and_mask_shift u 52 0
  simpa [D64_FRACT_MASK] using h

/-- `u &&& D64_EXP_MASK = (u >>> 52 % 2^11) <<< 52`. -/
theorem and_expfield (u : Nat) : u &&& D64_EXP_MASK = ((u >>> 52) % 2^11) <<< 52 := by
  have h := and_mask_shift u 11 52
  simpa [D64_EXP_MASK] using h

/-- `u &&& D64_SIGN = (u >>> 63 % 2) <<< 63`. -/
theorem and_sign (u : Nat) : u &&& D64_SIGN = ((u >>> 63) % 2) <<< 63 := by
  have h := and_mask_shift u 1 63
  simpa [D64_SIGN] using h

/-- `f &&& 0xFFC0000000000000 = (f >>> 54 % 2^10) <<< 54`. -/
theorem and_hi10 (f : Nat) : f &&& 0xFFC0000000000000 = ((f >>> 54) % 2^10) <<< 54 := by
  have h := and_mask_shift f 10 54
  simpa using h

/-- For `f < 2^64`, the guard of the first normalization loop is `f < 2^54`. -/
theorem hi10_guard {f : Nat} (h : f < 2^64) :
    (f &&& 0xFFC0000000000000 = 0) ↔ f < 2^54 := by
  rw [and_hi10, Nat.shiftLeft_eq, Nat.shiftRight_eq_div_pow]
  omega

/-- For `f < 2^64`, the guard of the second normalization loop is `f < 2^63`. -/
theorem sign_guard {f : Nat} (h : f < 2^64) :
    (f &&& D64_SIGN = 0) ↔ f < 2^63 := by
  rw [and_sign, Nat.shiftLeft_eq, Nat.shiftRight_eq_div_pow]
  omega

/-! ### Normalization -/

/-- Behaviour of the shift-by-10 loop: starting from a nonzero `f < 2^64` with
enough fuel, it multiplies `f` by `2^(10*s)` for some `s`, leaving a value in
`[2^54, 2^64)` and decrementing the exponent accordingly. -/
theorem normShift10_spec :
    ∀ (fuel f : Nat) (e : Int), 1 ≤ f → f < 2^64 → 2^54 ≤ 2^(10*fuel) * f →
    ∃ s : Nat, normShift10 fuel f e = (f * 2^(10*s), e - 10*(s:Int)) ∧
      2^54 ≤ f * 2^(10*s) ∧ f * 2^(10*s) < 2^64
  | 0, f, e, h1, h2, h3 => by
    refine ⟨0, by simp [normShift10], by simpa using h3, by simpa using h2⟩
  | fuel+1, f, e, h1, h2, h3 => by
    rw [normShift10]
    by_cases hg : f &&& 0xFFC0000000000000 = 0
    · rw [if_pos hg]
      have hf54 : f < 2^54 := (hi10_guard h2).mp hg
      have hsh : (f <<< 10) % 2^64 = f * 2^10 := by
        rw [Nat.shiftLeft_eq, Nat.mod_eq_of_lt (by omega)]
      rw [hsh]
      have h3' : 2^54 ≤ 2^(10*fuel) * (f * 2^10) := by
        calc (2:Nat)^54 ≤ 2^(10*(fuel+1)) * f := h3
          _ = 2^(10*fuel) * (f * 2^10) := by ring
      obtain ⟨s, hs, hlo, hhi⟩ := normShift10_spec fuel (f * 2^10) (e - 10)
        (by omega) (by omega) h3'
      have hf : f * 2^10 * 2^(10*s) = f * 2^(10*(s+1)) := by ring
      have he : e - 10 - 10*(s:Int) = e - 10*((s+1 : Nat):Int) := by push_cast; ring
      refine ⟨s + 1, ?_, ?_, ?_⟩
      · rw [hs, ← hf, ← he]
      · rw [← hf]
        exact hlo
      · rw [← hf]
        exact hhi
    · rw [if_neg hg]
      have hf54 : 2^54 ≤ f := by
        by_contra hlt
        exact hg ((hi10_guard h2).mpr (by omega))
      exact ⟨0, by simp, by simpa using hf54, by simpa using h2⟩

/-- Behaviour of the shift-by-1 loop: starting from `f ∈ [1, 2^64)` with
enough fuel it produces `f * 2^s ∈ [2^63, 2^64)`. -/
theorem normShift1_spec :
    ∀ (fuel f : Nat) (e : Int), 1 ≤ f → f < 2^64 → 2^63 ≤ 2^fuel * f →
    ∃ s : Nat, normShift1 fuel f e = (f * 2^s, e - (s:Int)) ∧
      2^63 ≤ f * 2^s ∧ f * 2^s < 2^64
  | 0, f, e, h1, h2, h3 => by
    refine ⟨0, by simp [normShift1], by simpa using h3, by simpa using h2⟩
  | fuel+1, f, e, h1, h2, h3 => by
    rw [normShift1]
    by_cases hg : f &&& D64_SIGN = 0
    · rw [if_pos hg]
      have hf63 : f < 2^63 := (sign_guard h2).mp hg
      have hsh : (f <<< 1) % 2^64 = f * 2 := by
        rw [Nat.shiftLeft_eq, Nat.mod_eq_of_lt (by omega)]
      rw [hsh]
      have h3' : 2^63 ≤ 2^fuel * (f * 2) := by
        calc (2:Nat)^63 ≤ 2^(fuel+1) * f := h3
          _ = 2^fuel * (f * 2) := by ring
      obtain ⟨s, hs, hlo, hhi⟩ := normShift1_spec fuel (f * 2) (e - 1)
        (by omega) (by omega) h3'
      have hf : f * 2 * 2^s = f * 2^(s+1) := by ring
      have he : e - 1 - (s:Int) = e - ((s+1 : Nat):Int) := by push_cast; ring
      refine ⟨s + 1, ?_, ?_, ?_⟩
      · rw [hs, ← hf, ← he]
      · rw [← hf]
        exact hlo
      · rw [← hf]
        exact hhi
    · rw [if_neg hg]
      have hf63 : 2^63 ≤ f := by
        by_contra hlt
        exact hg ((sign_guard h2).mpr (by omega))
      exact ⟨0, by simp, by simpa using hf63, by simpa using h2⟩

/-- `normalize_diy_fp` on a nonzero significand: it multiplies the significand
into `[2^63, 2^64)` by `2^s` and subtracts `s` from the exponent, with `s ≤ 63`. -/
theorem normalize_diy_fp_spec (f : Nat) (e : Int) (h1 : 1 ≤ f) (h2 : f < 2^64) :
    ∃ s : Nat, normalize_diy_fp ⟨f, e⟩ = ⟨f * 2^s, e - (s:Int)⟩ ∧
      2^63 ≤ f * 2^s ∧ f * 2^s < 2^64 ∧ s ≤ 63 := by
  obtain ⟨s1, hs1, hlo1, hhi1⟩ := normShift10_spec 7 f e h1 h2
    (le_trans (by norm_num) (Nat.le_mul_of_pos_right _ (by omega)))
  obtain ⟨s2, hs2, hlo2, hhi2⟩ := normShift1_spec 10 (f * 2^(10*s1)) (e - 10*(s1:Int))
    (by omega) hhi1 (le_trans (by norm_num) (Nat.mul_le_mul_left _ hlo1))
  have hf : f * 2^(10*s1) * 2^s2 = f * 2^(10*s1 + s2) := by ring
  have he : e - 10*(s1:Int) - (s2:Int) = e - ((10*s1 + s2 : Nat):Int) := by push_cast; ring
  have hlt : f * 2^(10*s1 + s2) < 2^64 := by
    rw [← hf]
    exact hhi2
  have hge : 2^63 ≤ f * 2^(10*s1 + s2) := by
    rw [← hf]
    exact hlo2
  refine ⟨10*s1 + s2, ?_, hge, hlt, ?_⟩
  · have hnorm : normalize_diy_fp ⟨f, e⟩ =
        ⟨(normShift1 10 (f * 2^(10*s1)) (e - 10*(s1:Int))).1,
         (normShift1 10 (f * 2^(10*s1)) (e - 10*(s1:Int))).2⟩ := by
      unfold normalize_diy_fp
      rw [hs1]
    rw [hnorm, hs2, ← hf, ← he]
  · have hle : 2^(10*s1 + s2) ≤ f * 2^(10*s1 + s2) := Nat.le_mul_of_pos_left _ (by omega)
    have hp : (2:Nat)^(10*s1 + s2) < 2^64 := lt_of_le_of_lt hle hlt
    have := (Nat.pow_lt_pow_iff_right (a := 2) (by norm_num)).mp hp
    omega

/-! ### The exponent range of the normalized input -/

/-- For the bit pattern of a strictly positive finite double, the binary
exponent of the normalized `DiyFp` lies in `[-1137, 960]`. -/
theorem normalized_e_range (u : Nat) (h1 : 1 ≤ u) (h2 : u ≤ 0x7FEFFFFFFFFFFFFF) :
    -1137 ≤ (normalize_diy_fp (double2diy_fp u)).e ∧
      (normalize_diy_fp (double2diy_fp u)).e ≤ 960 := by
  have hu63 : u < 2^63 := by omega
  have hE : (u >>> 52) % 2^11 = u / 2^52 := by
    rw [Nat.shiftRight_eq_div_pow]
    have : u / 2^52 < 2^11 := by omega
    rw [Nat.mod_eq_of_lt this]
  by_cases hE0 : u / 2^52 = 0
  · -- subnormal-branch: exponent field zero, `dfp = ⟨u, -1074⟩`
    have hcond : u &&& D64_EXP_MASK = 0 := by
      rw [and_expfield, hE, hE0]
      simp
    have hulT : u < 2^52 := by omega
    have hdfp : double2diy_fp u = ⟨u, -1074⟩ := by
      unfold double2diy_fp
      rw [if_pos hcond, and_fract, Nat.mod_eq_of_lt hulT]
      norm_num [D64_EXP_BIAS]
    rw [hdfp]
    obtain ⟨s, hs, hlo, hhi, hs63⟩ := normalize_diy_fp_spec u (-1074) h1 (by omega)
    rw [hs]
    constructor <;> simp <;> omega
  · -- normal-branch: exponent field `E ∈ [1, 2046]`
    have hcond : u &&& D64_EXP_MASK ≠ 0 := by
      rw [and_expfield, hE]
      intro hzero
      rw [Nat.shiftLeft_eq] at hzero
      rcases Nat.mul_eq_zero.mp hzero with hz | hz <;> omega
    have hEhi : u / 2^52 ≤ 2046 := by omega
    have hshift : ((u &&& D64_EXP_MASK) >>> D64_EXP_POS : Nat) = u / 2^52 := by
      rw [and_expfield, hE, Nat.shiftLeft_eq, Nat.shiftRight_eq_div_pow]
      show u / 2^52 * 2^52 / 2^52 = u / 2^52
      exact Nat.mul_div_cancel _ (by norm_num)
    have hdfp : double2diy_fp u =
        ⟨u % 2^52 + 2^52, ((u / 2^52 : Nat) : Int) - 1075⟩ := by
      unfold double2diy_fp
      rw [if_neg hcond, and_fract, hshift]
      norm_num [D64_EXP_BIAS, D64_IMPLICIT_ONE]
    rw [hdfp]
    have hf_lo : 2^52 ≤ u % 2^52 + 2^52 := by omega
    have hf_hi : u % 2^52 + 2^52 < 2^53 := by
      have := Nat.mod_lt u (show 0 < 2^52 by norm_num)
      omega
    obtain ⟨s, hs, hlo, hhi, hs63⟩ :=
      normalize_diy_fp_spec (u % 2^52 + 2^52) (((u / 2^52 : Nat) : Int) - 1075)
        (by omega) (by omega)
    -- `f ∈ [2^52, 2^53)` and `f * 2^s ∈ [2^63, 2^64)` force `s = 11`
    have hs_ge : 11 ≤ s := by
      by_contra hlt
      have hsle : s ≤ 10 := by omega
      have : (u % 2^52 + 2^52) * 2^s < 2^53 * 2^10 :=
        Nat.mul_lt_mul_of_lt_of_le hf_hi (Nat.pow_le_pow_right (by norm_num) hsle)
          (by norm_num)
      rw [show (2:Nat)^53 * 2^10 = 2^63 by norm_num] at this
      omega
    have hs_le : s ≤ 11 := by
      by_contra hgt
      have hsge : 12 ≤ s := by omega
      have : (2:Nat)^52 * 2^12 ≤ (u % 2^52 + 2^52) * 2^s :=
        Nat.mul_le_mul hf_lo (Nat.pow_le_pow_right (by norm_num) hsge)
      rw [show (2:Nat)^52 * 2^12 = 2^64 by norm_num] at this
      omega
    have hs11 : s = 11 := by omega
    rw [hs, hs11]
    have hElo : 1 ≤ u / 2^52 := by omega
    constructor <;> simp <;> omega

/-! ### Bounds for the cached-power index -/

/-- `log2Fuel` computes `Nat.log2` given enough fuel. -/
theorem log2Fuel_eq : ∀ (fuel N : Nat), N < 2^fuel → log2Fuel fuel N = Nat.log2 N
  | 0, N, h => by
    have hN : N = 0 := by omega
    subst hN
    conv_rhs => rw [Nat.log2]
    rfl
  | fuel+1, N, h => by
    rw [log2Fuel]
    by_cases h2 : N < 2
    · rw [if_pos h2]
      conv_rhs => rw [Nat.log2]
      rw [if_neg (by omega)]
    · rw [if_neg h2]
      have hrec := log2Fuel_eq fuel (N / 2) (by omega)
      rw [hrec]
      conv_rhs => rw [Nat.log2]
      rw [if_pos (by omega)]

/-- Rounding to 53 significant bits moves a value below `2^63` by less than
`2^11` in either direction. -/
theorem roundDyadic_bounds (N : Nat) (h : N < 2^63) :
    roundDyadic N ≤ N + 2^11 ∧ N ≤ roundDyadic N + 2^11 := by
  have hLeq : log2Fuel 128 N = Nat.log2 N :=
    log2Fuel_eq 128 N (lt_trans h (by norm_num))
  by_cases h52 : Nat.log2 N ≤ 52
  · have hval : roundDyadic N = N := by
      unfold roundDyadic
      rw [hLeq, if_pos h52]
    rw [hval]
    omega
  · have hN0 : N ≠ 0 := by
      intro h0
      rw [h0] at h52
      refine h52 ?_
      conv_lhs => rw [Nat.log2]
      norm_num
    have hlog : Nat.log2 N < 63 := (Nat.log2_lt hN0).mpr h
    have hd : Nat.log2 N - 52 ≤ 10 := by omega
    have hD : (2:Nat)^(Nat.log2 N - 52) ≤ 2^10 := Nat.pow_le_pow_right (by norm_num) hd
    have hdm := Nat.div_add_mod N (2^(Nat.log2 N - 52))
    have hr : N % 2^(Nat.log2 N - 52) < 2^(Nat.log2 N - 52) :=
      Nat.mod_lt _ (by positivity)
    have hcases : roundDyadic N =
        2^(Nat.log2 N - 52) * (N / 2^(Nat.log2 N - 52)) ∨
        roundDyadic N =
          2^(Nat.log2 N - 52) * (N / 2^(Nat.log2 N - 52)) + 2^(Nat.log2 N - 52) := by
      unfold roundDyadic
      rw [hLeq, if_neg h52]
      dsimp only
      split
      · right
        ring
      · left
        ring
    rcases hcases with hc | hc <;> rw [hc] <;> omega

/-- For `n ∈ [-1021, 1076]` (the range reachable from the Grisu3 driver) the
modelled `ceil((n as f64) * D_1_LOG2_10)` lies in `[-307, 324]`. -/
theorem ceilMulLog_bounds (n : Int) (h1 : -1021 ≤ n) (h2 : n ≤ 1076) :
    -307 ≤ ceilMulLog n ∧ ceilMulLog n ≤ 324 := by
  unfold ceilMulLog
  by_cases hn0 : n = 0
  · rw [if_pos hn0]
    norm_num
  · rw [if_neg hn0]
    by_cases hpos : 0 < n
    · rw [if_pos hpos]
      have hna : n.natAbs ≤ 1076 := by omega
      have hN : n.natAbs * cM ≤ 1076 * cM := Nat.mul_le_mul_right _ hna
      have hN63 : n.natAbs * cM < 2^63 := lt_of_le_of_lt hN (by norm_num [cM])
      obtain ⟨hub, hlb⟩ := roundDyadic_bounds _ hN63
      have hmono : (roundDyadic (n.natAbs * cM) + 2^54 - 1) / 2^54 ≤
          (1076 * cM + 2^11 + 2^54 - 1) / 2^54 := Nat.div_le_div_right (by omega)
      have hlit : (1076 * cM + 2^11 + 2^54 - 1) / 2^54 = 324 := by norm_num [cM]
      constructor
      · have : (0:Int) ≤ ((roundDyadic (n.natAbs * cM) + 2^54 - 1) / 2^54 : Nat) := Int.ofNat_nonneg _
        omega
      · have := hmono
        omega
    · rw [if_neg hpos]
      have hneg : n < 0 := by omega
      have hna : n.natAbs ≤ 1021 := by omega
      have hN : n.natAbs * cM ≤ 1021 * cM := Nat.mul_le_mul_right _ hna
      have hN63 : n.natAbs * cM < 2^63 := lt_of_le_of_lt hN (by norm_num [cM])
      obtain ⟨hub, hlb⟩ := roundDyadic_bounds _ hN63
      have hmono : roundDyadic (n.natAbs * cM) / 2^54 ≤
          (1021 * cM + 2^11) / 2^54 := Nat.div_le_div_right (by omega)
      have hlit : (1021 * cM + 2^11) / 2^54 = 307 := by norm_num [cM]
      constructor
      · omega
      · have : (0:Int) ≤ (roundDyadic (n.natAbs * cM) / 2^54 : Nat) := Int.ofNat_nonneg _
        omega

/-- The index computed by `cached_pow` is in `[0, 87)` for every target
exponent in the range reachable from the driver. -/
theorem cachedPowIdx_bounds (exp : Int) (h1 : -1084 ≤ exp) (h2 : exp ≤ 1013) :
    0 ≤ cachedPowIdx exp ∧ cachedPowIdx exp < 87 := by
  obtain ⟨hk1, hk2⟩ := ceilMulLog_bounds (exp + DIYFP_FRACT_SIZE - 1)
    (by unfold DIYFP_FRACT_SIZE; omega) (by unfold DIYFP_FRACT_SIZE; omega)
  unfold cachedPowIdx cachedPowK MIN_CACHED_EXP CACHED_EXP_STEP at *
  have h0 : 0 ≤ ceilMulLog (exp + DIYFP_FRACT_SIZE - 1) - (-348) - 1 := by omega
  rw [Int.tdiv_eq_ediv h0 (by norm_num)]
  omega

/-- C7: for every strictly positive finite double (bit pattern
`1 ≤ u ≤ 0x7FEFFFFFFFFFFFFF`), the cached-power lookup performed by the Grisu3
driver — which computes `k = ceil(((exp + 63) as f64) * D_1_LOG2_10)`
(`cachedPowK`) and the table index `(k - (-348) - 1) / 8 + 1` (`cachedPowIdx`,
truncating `i32` division) for the target exponent
`exp = MIN_TARGET_EXP - DIYFP_FRACT_SIZE - w.e` with `w` the normalized input —
always produces an index inside the 87-entry power table, so the out-of-range
indexing (a fatal error in Rust) is unreachable. -/
theorem cached_pow_index_always_in_table (u : Nat) (h1 : 1 ≤ u)
    (h2 : u ≤ 0x7FEFFFFFFFFFFFFF) :
    0 ≤ cachedPowIdx
        (MIN_TARGET_EXP - DIYFP_FRACT_SIZE - (normalize_diy_fp (double2diy_fp u)).e) ∧
      cachedPowIdx
        (MIN_TARGET_EXP - DIYFP_FRACT_SIZE - (normalize_diy_fp (double2diy_fp u)).e) < 87 := by
  obtain ⟨hlo, hhi⟩ := normalized_e_range u h1 h2
  refine cachedPowIdx_bounds _ ?_ ?_ <;> unfold MIN_TARGET_EXP DIYFP_FRACT_SIZE <;> omega

/-- Witness for `cached_pow_index_always_in_table` at the bit pattern of `1.0`. -/
theorem cached_pow_index_always_in_table_witness :
    1 ≤ 0x3FF0000000000000 ∧ (0x3FF0000000000000 : Nat) ≤ 0x7FEFFFFFFFFFFFFF ∧
      (0 ≤ cachedPowIdx
          (MIN_TARGET_EXP - DIYFP_FRACT_SIZE -
            (normalize_diy_fp (double2diy_fp 0x3FF0000000000000)).e) ∧
        cachedPowIdx
          (MIN_TARGET_EXP - DIYFP_FRACT_SIZE -
            (normalize_diy_fp (double2diy_fp 0x3FF0000000000000)).e) < 87) :=
  ⟨by norm_num, by norm_num,
    cached_pow_index_always_in_table 0x3FF0000000000000 (by norm_num) (by norm_num)⟩

/-! ### The rounded 128-bit multiply -/

/-- `z &&& MASK32 = z % 2^32`. -/
theorem and_mask32 (z : Nat) : z &&& MASK32 = z % 2^32 := by
  have h := and_mask_shift z 32 0
  simpa [MASK32] using h

/-- C8: for all `DiyFp` inputs with 64-bit significands, `multiply` returns
the significand `floor((x.f * y.f + 2^63) / 2^64)` — the high 64 bits of the
exact 128-bit product, rounded to nearest by the `2^31` bias added to the
middle bits — and the binary exponent `x.e + y.e + 64`. -/
theorem multiply_high64_rounded (x y : DiyFp) (hx : x.f < 2^64) (hy : y.f < 2^64) :
    multiply x y = ⟨(x.f * y.f + 2^63) / 2^64, x.e + y.e + 64⟩ := by
  unfold multiply
  dsimp only
  congr 1
  simp only [Nat.shiftRight_eq_div_pow, and_mask32]
  set X := x.f with hXdef
  set Y := y.f with hYdef
  set a := X / 2^32 with hadef
  set b := X % 2^32 with hbdef
  set c := Y / 2^32 with hcdef
  set d := Y % 2^32 with hddef
  have hX : 2^32 * a + b = X := Nat.div_add_mod X (2^32)
  have hY : 2^32 * c + d = Y := Nat.div_add_mod Y (2^32)
  have hb : b < 2^32 := Nat.mod_lt _ (by norm_num)
  have hd : d < 2^32 := Nat.mod_lt _ (by norm_num)
  have ha : a < 2^32 := by omega
  have hc : c < 2^32 := by omega
  have hxy : X * Y = a*c*2^64 + a*d*2^32 + b*c*2^32 + b*d := by
    rw [← hX, ← hY]
    ring
  rw [hxy]
  have h1 := Nat.div_add_mod (a*d) (2^32)
  have h2 := Nat.div_add_mod (b*c) (2^32)
  have h3 := Nat.div_add_mod (b*d) (2^32)
  have hm1 : a*d % 2^32 < 2^32 := Nat.mod_lt _ (by norm_num)
  have hm2 : b*c % 2^32 < 2^32 := Nat.mod_lt _ (by norm_num)
  have hm3 : b*d % 2^32 < 2^32 := Nat.mod_lt _ (by norm_num)
  have hac : a*c ≤ (2^32-1)*(2^32-1) := Nat.mul_le_mul (by omega) (by omega)
  have had : a*d ≤ (2^32-1)*(2^32-1) := Nat.mul_le_mul (by omega) (by omega)
  have hbc : b*c ≤ (2^32-1)*(2^32-1) := Nat.mul_le_mul (by omega) (by omega)
  have hbd : b*d ≤ (2^32-1)*(2^32-1) := Nat.mul_le_mul (by omega) (by omega)
  have htmp := Nat.div_add_mod (b*d / 2^32 + a*d % 2^32 + b*c % 2^32 + 2^31) (2^32)
  have hmt : (b*d / 2^32 + a*d % 2^32 + b*c % 2^32 + 2^31) % 2^32 < 2^32 :=
    Nat.mod_lt _ (by norm_num)
  omega

/-- Witness for `multiply_high64_rounded` on concrete inputs. -/
theorem multiply_high64_rounded_witness :
    (⟨0xDEADBEEF12345678, 7⟩ : DiyFp).f < 2^64 ∧ (⟨0xCAFEBABE87654321, -9⟩ : DiyFp).f < 2^64 ∧
      multiply ⟨0xDEADBEEF12345678, 7⟩ ⟨0xCAFEBABE87654321, -9⟩ =
        ⟨(0xDEADBEEF12345678 * 0xCAFEBABE87654321 + 2^63) / 2^64, 7 + -9 + 64⟩ :=
  ⟨by norm_num, by norm_num,
    multiply_high64_rounded ⟨0xDEADBEEF12345678, 7⟩ ⟨0xCAFEBABE87654321, -9⟩
      (by norm_num) (by norm_num)⟩

/-! ### Claims settled by direct evaluation of the model -/

/-- C3 (counterexample): with `wp_W = 1`, `delta = 6`, `rest = 2`,
`ten_kappa = 100`, `ulp = 1` the rounding-down loop exits immediately and the
early return does not fire, the final remainder is `rest = 2`, and
`round_weed` reports success (`1`) — yet `rest` is **not** strictly between
`2*ulp = 2` and `delta - 4*ulp = 2`.  The source tests `2*ulp <= rest &&
rest <= delta - 4*ulp`, non-strictly. -/
theorem round_weed_strict_bounds_cex :
    round_weed 10 [49] 0 1 1 6 2 100 1 = some ([49], 2, 1) ∧
      ¬ ((2 * 1 < 2 ∧ 2 < 6 - 4 * 1 : Prop)) := by
  constructor
  · rfl
  · decide

/-- C3 (amended): whenever the rounding-down loop of `round_weed` terminates
with final remainder `rest1` and the early unsafe return does not fire,
`round_weed` reports success (returns `1`) **iff**
`2*ulp ≤ rest1 ∧ rest1 ≤ delta - 4*ulp` — the comparisons non-strict and the
arithmetic wrapping `u64` arithmetic (`mul64`, `sub64`). -/
theorem round_weed_success_iff
    (fuel : Nat) (buf : List Nat) (base len : Nat) (wp_W delta rest ten_kappa ulp : Nat)
    (buf1 : List Nat) (rest1 : Nat)
    (hloop : roundWeedLoop fuel buf (base + len - 1) (sub64 wp_W ulp) delta rest ten_kappa
      = some (buf1, rest1))
    (hearly : ¬ (rest1 < add64 wp_W ulp ∧ ten_kappa ≤ sub64 delta rest1 ∧
      (add64 rest1 ten_kappa < add64 wp_W ulp ∨
        sub64 (add64 rest1 ten_kappa) (add64 wp_W ulp) < sub64 (add64 wp_W ulp) rest1))) :
    round_weed fuel buf base len wp_W delta rest ten_kappa ulp = some (buf1, rest1, 1) ↔
      (mul64 2 ulp ≤ rest1 ∧ rest1 ≤ sub64 delta (mul64 4 ulp)) := by
  unfold round_weed
  dsimp only
  rw [hloop]
  dsimp only
  rw [if_neg hearly]
  by_cases hc : mul64 2 ulp ≤ rest1 ∧ rest1 ≤ sub64 delta (mul64 4 ulp)
  · rw [if_pos hc]
    simp [hc]
  · rw [if_neg hc]
    simp [hc]

/-- Witness for `round_weed_success_iff` at the concrete inputs of the
counterexample (where both sides of the equivalence are true). -/
theorem round_weed_success_iff_witness :
    (roundWeedLoop 10 [49] (0 + 1 - 1) (sub64 1 1) 6 2 100 = some ([49], 2)) ∧
      (¬ ((2:Nat) < add64 1 1 ∧ 100 ≤ sub64 6 2 ∧
        (add64 2 100 < add64 1 1 ∨ sub64 (add64 2 100) (add64 1 1) < sub64 (add64 1 1) 2))) ∧
      (round_weed 10 [49] 0 1 1 6 2 100 1 = some ([49], 2, 1) ↔
        (mul64 2 1 ≤ 2 ∧ (2:Nat) ≤ sub64 6 (mul64 4 1))) :=
  ⟨by decide, by decide,
    round_weed_success_iff 10 [49] 0 1 1 6 2 100 1 [49] 2 (by decide) (by decide)⟩

/-- C5: `i_to_str` applied to the in-range value `10` writes the bytes
`['1', 0x1A]` (the digit expression `(val - (ni << 3 + ni << 1)) as u8`
computes `10 - 32 = -22` instead of `0` because of the Rust precedence of
`<<`), not the decimal representation `"10" = ['1', '0']`; the returned
length `2` does agree with `exp_len 10`. -/
theorem i_to_str_digit_bug :
    i_to_str 10 = ([49, 26], 2) ∧ ([49, 26] : List Nat) ≠ [49, 48] ∧ exp_len 10 = 2 :=
  ⟨rfl, by decide, rfl⟩

/-- C1: `write` applied to the bit pattern of `1e30` (0x46293E5939A08CEA)
emits the bytes `['1', 'e', '3', 0xCE]`: the exponent writer `i_to_str`
mangles the digits of `30`, so the output contains the byte `0xCE = 206`,
which cannot occur in a decimal numeric literal — the emitted text cannot
parse back to `1e30` (or to any number). -/
theorem write_1e30_emits_invalid_byte :
    write 0x46293E5939A08CEA zeros32 = some (.ok [49, 101, 51, 206]) ∧
      decimalLiteralByte 206 = false :=
  ⟨rfl, rfl⟩

/-- C2: on the double with bit pattern 0x3FF000000000005D
(`v = 1.0000000000000207`), the Grisu3 digit generator reports failure, and
`write` aborts with the modelled `panic` message `"GRISU CANNOT DO!"` instead
of falling back to a general-purpose conversion. -/
theorem write_grisu_failure_aborts :
    write 0x3FF000000000005D zeros32 = some (.error "GRISU CANNOT DO!") := rfl

/-- C4 (counterexample): `write` applied to the bit pattern of `0.1` (with a
zero-initialized model of the uninitialized scratch buffer) does not emit
`"0.1" = [48, 46, 49]` — it emits the two bytes `['.', 0]`. -/
theorem write_tenth_not_zero_point_one :
    write 0x3FB999999999999A zeros32 ≠ some (.ok [48, 46, 49]) := by
  rw [show write 0x3FB999999999999A zeros32 = some (.ok [46, 0]) from rfl]
  simp only [ne_eq, Option.some.injEq, Except.ok.injEq]
  decide

/-- C4 (amended): `write (1.0)` emits exactly `"1"`; `write (0.1)` emits
exactly two bytes — `'.'` followed by a copy of scratch-buffer slot 2, i.e.
uninitialized memory (`0` for a zeroed buffer, `77` when slot 2 holds `77`),
never `"0.1"`. -/
theorem write_one_and_tenth_layout :
    write 0x3FF0000000000000 zeros32 = some (.ok [49]) ∧
      write 0x3FB999999999999A zeros32 = some (.ok [46, 0]) ∧
      write 0x3FB999999999999A (zeros32.set 2 77) = some (.ok [46, 77]) :=
  ⟨rfl, rfl, rfl⟩

/-- C9: converting the NaN sentinel `Number` to a native float takes the
leading `is_nan` branch of both `From` implementations, returning the float
NaN before any floating-point arithmetic (or anything that could abort) is
reached. -/
theorem nan_number_to_native_float :
    f64_from NAN = FloatFromNumber.nan ∧ f32_from NAN = FloatFromNumber.nan :=
  ⟨rfl, rfl⟩

/-- C10: `as_fixed_point_u64` checks `category != POSITIVE` first, so a
negative-signed zero — `from_parts false 0 e` for any exponent `e` — yields
`None` for every requested number of decimal places, even though the value
zero is not a negative number. -/
theorem as_fixed_point_u64_negative_zero (e : Int) (p : Nat) :
    as_fixed_point_u64 (from_parts false 0 e) p = none := rfl

/-! ### Value-based Number equality -/

/-- Below 20 the power table of `decimal_power` holds the exact powers of ten. -/
theorem decimal_power_small : ∀ k : Nat, k < 20 → decimal_power k = 10^k := by decide

/-- `toI16` is the identity on the `i16` range. -/
theorem toI16_eq_self (x : Int) (h1 : -2^15 ≤ x) (h2 : x ≤ 2^15 - 1) : toI16 x = x := by
  unfold toI16
  omega

/-- C6: `Number` equality is value-based across differing exponents: whenever
`m * 10^k` still fits in a `u64` (and the exponents stay in `i16` range),
`from_parts s (m * 10^k) e == from_parts s m (e + k)`. -/
theorem number_eq_representation_independent
    (s : Bool) (m k : Nat) (e : Int)
    (hm : m * 10^k < 2^64) (hlo : -2^15 ≤ e) (hhi : e + k ≤ 2^15 - 1) :
    numberEq (from_parts s (m * 10^k) e) (from_parts s m (e + (k:Int))) = true := by
  have hand1 : (1:Nat) &&& NAN_MASK = 0 := by decide
  have hand0 : (0:Nat) &&& NAN_MASK = 0 := by decide
  have hnan_a : is_nan (from_parts s (m * 10^k) e) = false := by
    cases s <;> simp [is_nan, from_parts, hand1, hand0]
  have hnan_b : is_nan (from_parts s m (e + (k:Int))) = false := by
    cases s <;> simp [is_nan, from_parts, hand1, hand0]
  by_cases hm0 : m = 0
  · subst hm0
    have hz_a : is_zero (from_parts s (0 * 10^k) e) = true := by
      cases s <;> simp [is_zero, is_nan, from_parts, hand1, hand0]
    have hz_b : is_zero (from_parts s 0 (e + (k:Int))) = true := by
      cases s <;> simp [is_zero, is_nan, from_parts, hand1, hand0]
    unfold numberEq
    rw [hz_a, hz_b]
    simp
  · have hpow_pos : 0 < 10^k := Nat.pos_pow_of_pos k (by norm_num)
    have hk : k < 20 := by
      by_contra hk20
      have h1 : (10:Nat)^20 ≤ 10^k := Nat.pow_le_pow_right (by norm_num) (by omega)
      have h2 : (10:Nat)^k ≤ m * 10^k := Nat.le_mul_of_pos_left _ (by omega)
      have h3 : (10:Nat)^20 = 100000000000000000000 := by norm_num
      have h4 : (2:Nat)^64 = 18446744073709551616 := by norm_num
      omega
    have hmne : m * 10^k ≠ 0 := Nat.mul_ne_zero hm0 (by positivity)
    have hz_a : is_zero (from_parts s (m * 10^k) e) = false := by
      cases s <;> simp [is_zero, is_nan, from_parts, hand1, hand0, hmne]
    have hcat : ((from_parts s (m * 10^k) e).category !=
        (from_parts s m (e + (k:Int))).category) = false := by
      cases s <;> rfl
    unfold numberEq
    rw [hz_a, hnan_a]
    rw [if_neg (by simp)]
    rw [hcat]
    rw [if_neg (by simp)]
    have hediff : toI16 ((from_parts s (m * 10^k) e).exponent -
        (from_parts s m (e + (k:Int))).exponent) = -(k:Int) := by
      show toI16 (e - (e + (k:Int))) = -(k:Int)
      have hx : e - (e + (k:Int)) = -(k:Int) := by ring
      rw [hx]
      exact toI16_eq_self _ (by omega) (by omega)
    simp only [hediff]
    by_cases hk0 : k = 0
    · subst hk0
      rw [if_pos (by norm_num)]
      show ((m * 10^0) == m) = true
      simp
    · rw [if_neg (by simp only [beq_iff_eq]; omega)]
      rw [if_neg (by omega)]
      show ((from_parts s (m * 10^k) e).mantissa ==
        mul64 (from_parts s m (e + (k:Int))).mantissa
          (decimal_power (toU16 (toI16 (-(-(k:Int))))))) = true
      have hkk : toI16 (-(-(k:Int))) = (k:Int) := by
        rw [neg_neg]
        exact toI16_eq_self _ (by omega) (by omega)
      rw [hkk]
      have hu16 : toU16 (k:Int) = k := by
        unfold toU16
        omega
      rw [hu16, decimal_power_small k hk]
      show ((m * 10^k) == mul64 m (10^k)) = true
      unfold mul64
      rw [Nat.mod_eq_of_lt hm]
      simp

/-- Witness for `number_eq_representation_independent`: the spec instance
`from_parts true 500 (-1) == from_parts true 50 0`. -/
theorem number_eq_representation_independent_witness :
    ((50 * 10^1 : Nat) < 2^64 ∧ -(2^15:Int) ≤ -1 ∧ ((-1:Int) + (1:Nat) ≤ 2^15 - 1)) ∧
      numberEq (from_parts true 500 (-1)) (from_parts true 50 0) = true :=
  ⟨⟨by norm_num, by norm_num, by norm_num⟩, by
    have h := number_eq_representation_independent true 50 1 (-1)
      (by norm_num) (by norm_num) (by norm_num)
    norm_num at h
    exact h⟩

end Grisu
